import Mathlib

/-!
# Path resolution of the core API (`core/coreapi/path.go`)

A shallow embedding of `CoreAPI.ResolvePath` and `CoreAPI.ResolveNode`.

* Go's multiple return values are records: a nil interface is `none`, a nil
  slice is `[]`, a nil error is `none`.
* The functions the file calls but does not define (package `path`, package
  `resolve`, the two path resolvers, the DAG service) are parameters: a record
  of library functions (`Lib`) and the receiver (`CoreAPI`).
* Every call that leaves the file is appended to a call log, so that
  "is never invoked" and "is invoked once" are statements about a list.
* `tracing.Span` only decorates the context with a span; the context is
  modelled by its cancellation state, which `tracing.Span` inherits unchanged.
-/

namespace Kubo

/-! ## Data model -/

/-- Go error values the code names, creates or forwards. -/
inductive Error where
  /-- The sentinel `resolve.ErrNoNamesys`. -/
  | ErrNoNamesys
  /-- The sentinel `coreiface.ErrOffline`. -/
  | ErrOffline
  /-- The sentinel `context.Canceled`. -/
  | Canceled
  /-- A fresh error made by `fmt.Errorf`, given by its message. -/
  | Errorf (msg : String)
  /-- The path model refused its input (`MalformedPath` of the specification). -/
  | MalformedPath
  /-- A store lookup failed for the identifier (`NodeFetchFailed`). -/
  | NodeFetchFailed (id : String)
  /-- A method call on a nil interface value (a run-time fault, never returned). -/
  | NilDereference
  deriving DecidableEq, Repr

/-- A `context.Context`, reduced to whether it is already canceled. -/
structure Context where
  canceled : Bool
  deriving DecidableEq, Repr

/-- Modelled from the spec: the constant `path.IPFSNamespace` (package `path` is
missing), the tag of the UnixFS-like namespace. -/
def IPFSNamespace : String := "ipfs"

/-- Modelled from the spec: the constant `path.IPLDNamespace` (package `path` is
missing), the tag of the IPLD-like namespace. -/
def IPLDNamespace : String := "ipld"

/-- Modelled from the spec: the constant `path.IPNSNamespace` (package `path` is
missing), the tag of the mutable naming namespace. -/
def IPNSNamespace : String := "ipns"

/-- Which of the two resolver fields of the receiver the `switch` picked. -/
inductive ResolverKind where
  | ipld
  | unixFS
  deriving DecidableEq, Repr

/-- The functions of packages `path` and `resolve` that `path.go` calls.
`Path` is `path.Path`, `ImPath` is `path.ImmutablePath`, `Cid` is `cid.Cid`. -/
structure Lib (Path ImPath Cid NameSys : Type) where
  /-- The function `resolve.ResolveIPNS(ctx, namesys, p)`. -/
  ResolveIPNS : Context → Option NameSys → Path → Except Error Path
  /-- The method `p.Namespace()`. -/
  Namespace : Path → String
  /-- The function `path.NewImmutablePath(p)`. -/
  NewImmutablePath : Path → Except Error ImPath
  /-- The function `path.NewPathFromSegments(segments...)`. -/
  NewPathFromSegments : List String → Except Error Path
  /-- The method `rp.RootCid()`. -/
  RootCid : ImPath → Cid
  /-- The method `node.String()` of a `cid.Cid`. -/
  CidString : Cid → String

/-- The fields of the receiver `api *CoreAPI` that `path.go` reads. -/
structure CoreAPI (ImPath Cid Node NameSys : Type) where
  /-- The field `api.namesys`; `none` is a nil naming system. -/
  namesys : Option NameSys
  /-- The method `api.ipldPathResolver.ResolveToLastNode`. -/
  ipldPathResolver : Context → ImPath → Except Error (Cid × List String)
  /-- The method `api.unixFSPathResolver.ResolveToLastNode`. -/
  unixFSPathResolver : Context → ImPath → Except Error (Cid × List String)
  /-- The method `api.dag.Get`. -/
  dag : Context → Cid → Except Error Node

/-- One call that leaves `path.go`. -/
inductive Call (Path ImPath Cid : Type) where
  | ResolveIPNS (ctx : Context) (p : Path)
  | NewImmutablePath (p : Path)
  | ResolveToLastNode (k : ResolverKind) (ctx : Context) (imPath : ImPath)
  | NewPathFromSegments (segments : List String)
  | dagGet (ctx : Context) (c : Cid)

/-- The three values `ResolvePath` returns, and the calls it made. -/
structure PathResult (Path ImPath Cid : Type) where
  path : Option ImPath
  remainder : List String
  err : Option Error
  calls : List (Call Path ImPath Cid)

/-- The two values `ResolveNode` returns, and the calls it made. -/
structure NodeResult (Path ImPath Cid Node : Type) where
  node : Option Node
  err : Option Error
  calls : List (Call Path ImPath Cid)

variable {Path ImPath Cid Node NameSys : Type}

/-- Is the call a `ResolveToLastNode` of either resolver? -/
def Call.isResolveToLastNode : Call Path ImPath Cid → Bool
  | .ResolveToLastNode _ _ _ => true
  | _ => false

/-- Is the call a `path.NewPathFromSegments`? -/
def Call.isNewPathFromSegments : Call Path ImPath Cid → Bool
  | .NewPathFromSegments _ => true
  | _ => false

/-- Is the call a `resolve.ResolveIPNS`? -/
def Call.isResolveIPNS : Call Path ImPath Cid → Bool
  | .ResolveIPNS _ _ => true
  | _ => false

/-- Is the call an `api.dag.Get`? -/
def Call.isDagGet : Call Path ImPath Cid → Bool
  | .dagGet _ _ => true
  | _ => false

/-! ## The code -/

/-- The resolver field behind a `ResolverKind`. -/
def CoreAPI.resolver (api : CoreAPI ImPath Cid Node NameSys) :
    ResolverKind → Context → ImPath → Except Error (Cid × List String)
  | .ipld => api.ipldPathResolver
  | .unixFS => api.unixFSPathResolver

/-- Lines 50-58: the `switch p.Namespace()`; `none` is the `default` case. -/
def switchNamespace (ns : String) : Option ResolverKind :=
  if ns = IPLDNamespace then some ResolverKind.ipld
  else if ns = IPFSNamespace then some ResolverKind.unixFS
  else none

/-- Lines 39-83, `CoreAPI.ResolvePath`. -/
def ResolvePath (lib : Lib Path ImPath Cid NameSys) (api : CoreAPI ImPath Cid Node NameSys)
    (ctx : Context) (p : Path) : PathResult Path ImPath Cid :=
  let c1 : List (Call Path ImPath Cid) := [Call.ResolveIPNS ctx p]
  match lib.ResolveIPNS ctx api.namesys p with
  | .error err =>
    if err = Error.ErrNoNamesys then
      { path := none, remainder := [], err := some Error.ErrOffline, calls := c1 }
    else
      { path := none, remainder := [], err := some err, calls := c1 }
  | .ok p =>
    match switchNamespace (lib.Namespace p) with
    | none =>
      { path := none, remainder := [],
        err := some (Error.Errorf ("unsupported path namespace: " ++ lib.Namespace p)),
        calls := c1 }
    | some k =>
      let c2 := c1 ++ [Call.NewImmutablePath p]
      match lib.NewImmutablePath p with
      | .error err => { path := none, remainder := [], err := some err, calls := c2 }
      | .ok imPath =>
        let c3 := c2 ++ [Call.ResolveToLastNode k ctx imPath]
        match api.resolver k ctx imPath with
        | .error err => { path := none, remainder := [], err := some err, calls := c3 }
        | .ok (node, remainder) =>
          let segments := [lib.Namespace p, lib.CidString node] ++ remainder
          let c4 := c3 ++ [Call.NewPathFromSegments segments]
          match lib.NewPathFromSegments segments with
          | .error err => { path := none, remainder := [], err := some err, calls := c4 }
          | .ok p =>
            let c5 := c4 ++ [Call.NewImmutablePath p]
            match lib.NewImmutablePath p with
            | .error err => { path := none, remainder := [], err := some err, calls := c5 }
            | .ok imPath =>
              { path := some imPath, remainder := remainder, err := none, calls := c5 }

/-- Lines 21-35, `CoreAPI.ResolveNode`. -/
def ResolveNode (lib : Lib Path ImPath Cid NameSys) (api : CoreAPI ImPath Cid Node NameSys)
    (ctx : Context) (p : Path) : NodeResult Path ImPath Cid Node :=
  let r := ResolvePath lib api ctx p
  match r.err with
  | some err => { node := none, err := some err, calls := r.calls }
  | none =>
    match r.path with
    | none =>
      -- `rp.RootCid()` on a nil path; `ResolvePath` never returns nil, nil, nil
      { node := none, err := some Error.NilDereference, calls := r.calls }
    | some rp =>
      let c := r.calls ++ [Call.dagGet ctx (lib.RootCid rp)]
      match api.dag ctx (lib.RootCid rp) with
      | .error err => { node := none, err := some err, calls := c }
      | .ok node => { node := some node, err := none, calls := c }

/-! ## The collaborators, from the specification

Package `path`, package `resolve`, the resolvers and the store are not part of
`path.go`. The definitions below follow the specification's description of them
(§3, §4.1, §4.2, §4.4, §6); they give the path model for the claims that are
about path values and the concrete collaborators of the examples. -/

/-- Modelled from the spec: the Path value of §3 (package `path` is missing): a
namespace tag, a root identifier and the ordered segments below the root. An
Identifier is given by its canonical string form. -/
structure SpecPath where
  ns : String
  root : String
  segments : List String
  deriving DecidableEq, Repr

/-- Modelled from the spec: the "single fixed separator character" of §6
(package `path` is missing). -/
def separator : Char := '/'

/-- Modelled from the spec: the "recognized namespace tag" of §4.1 (package
`path` is missing): the two content-addressed namespaces and the mutable one. -/
def recognizedNamespace (ns : String) : Bool :=
  decide (ns = IPFSNamespace) || decide (ns = IPLDNamespace) || decide (ns = IPNSNamespace)

/-- Modelled from the spec: "printable" of §4.1 (package `path` is missing),
read as the printable ASCII range. -/
def printable (c : Char) : Bool :=
  decide (0x20 ≤ c.toNat) && decide (c.toNat < 0x7f)

/-- Modelled from the spec: the syntactic shape of an identifier (package `path`
is missing): non-empty and printable (§4.1), without the separator (§4.5, §6). -/
def validIdentifier (id : String) : Bool :=
  !id.data.isEmpty && id.data.all (fun c => printable c && !decide (c = separator))

/-- Modelled from the spec: the segments of a path, namespace tag first (§4.1,
§6; package `path` is missing). -/
def Segments (p : SpecPath) : List String :=
  p.ns :: p.root :: p.segments

/-- Modelled from the spec: the text of a list of segments (package `path` is
missing): "segments joined by a single fixed separator character" (§6), written
with the leading separator of the examples of §8. -/
def SegmentsToString (segs : List String) : String :=
  String.mk (separator :: List.intercalate [separator] (segs.map String.data))

/-- Modelled from the spec: the text of a path (package `path` is missing): the
text of its segments, "first segment is always the namespace tag" (§6). -/
def PathString (p : SpecPath) : String :=
  SegmentsToString (Segments p)

/-- Modelled from the spec: the splitting of entry point (a) of §4.1 (package
`path` is missing): "splits on a fixed separator, discards empty segments". -/
def StringToSegments (s : String) : List String :=
  ((s.data.splitOn separator).filter (fun l => !l.isEmpty)).map String.mk

/-- Modelled from the spec: construction entry point (b) of §4.1 (the function
`path.NewPathFromSegments` is missing): fails with `MalformedPath` on a list
without namespace tag and identifier, on a first segment that is no recognized
namespace tag, and on an identifier of the wrong shape. Otherwise the path is the
one entry point (a) produces for the text of the list ("both must produce
identical Path values for equivalent input", so that the built path is
"guaranteed re-parseable", §4.5): below the root it holds the segments of the
joined text. -/
def NewPathFromSegments : List String → Except Error SpecPath
  | ns :: root :: rest =>
    if recognizedNamespace ns && validIdentifier root then
      .ok { ns := ns, root := root, segments := StringToSegments (SegmentsToString rest) }
    else .error Error.MalformedPath
  | _ => .error Error.MalformedPath

/-- Modelled from the spec: construction entry point (a) of §4.1 (the function
`path.NewPath` is missing): split the text, then build as entry point (b) does,
so that both produce the same path for equivalent input. -/
def NewPath (s : String) : Except Error SpecPath :=
  NewPathFromSegments (StringToSegments s)

/-- Modelled from the spec: the function `path.NewImmutablePath` is missing; a
path is immutable unless its namespace is the mutable naming namespace (§4.2,
glossary "Mutable name"). -/
def NewImmutablePath (p : SpecPath) : Except Error SpecPath :=
  if p.ns = IPNSNamespace then .error Error.MalformedPath else .ok p

/-- Modelled from the spec: the naming-system collaborator of §6,
`Resolve(ctx, Path) -> (Path, error)`. -/
abbrev NameSystem : Type := Context → SpecPath → Except Error SpecPath

/-- Modelled from the spec: the adapter of §4.2 (the function
`resolve.ResolveIPNS` is missing): a path outside the mutable naming namespace
is returned unchanged without a collaborator call; a mutable path with no naming
system fails with the "not configured" sentinel; otherwise the collaborator
answers. -/
def ResolveIPNS (ctx : Context) (namesys : Option NameSystem) (p : SpecPath) :
    Except Error SpecPath :=
  if p.ns = IPNSNamespace then
    match namesys with
    | none => .error Error.ErrNoNamesys
    | some resolve => resolve ctx p
  else .ok p

/-- Modelled from the spec: the path model of §4.1 as the library `path.go`
calls (packages `path` and `resolve` are missing). -/
def specLib : Lib SpecPath SpecPath String NameSystem where
  ResolveIPNS := ResolveIPNS
  Namespace := fun p => p.ns
  NewImmutablePath := NewImmutablePath
  NewPathFromSegments := NewPathFromSegments
  RootCid := fun p => p.root
  CidString := fun c => c

/-- Modelled from the spec: the Node of §3 (the store is missing): its named
outgoing links. -/
structure SpecNode where
  links : List (String × String)
  deriving DecidableEq, Repr

/-- Modelled from the spec: the store collaborator of §6 over a finite map (the
store is missing): a fetch under a canceled context returns a cancellation
error (§5), a missing identifier fails with `NodeFetchFailed` (§4.4). -/
def Get (store : String → Option SpecNode) (ctx : Context) (id : String) :
    Except Error SpecNode :=
  if ctx.canceled then .error Error.Canceled
  else
    match store id with
    | none => .error (Error.NodeFetchFailed id)
    | some node => .ok node

/-- Modelled from the spec: the walk of §4.4 (the resolvers are missing): no
segment left ends at the current identifier without a fetch; otherwise the
current node is fetched, a matching link is followed, and a segment without a
matching link ends the walk with it and all later segments as remainder. -/
def walk (store : String → Option SpecNode) (ctx : Context) :
    String → List String → Except Error (String × List String)
  | cur, [] => .ok (cur, [])
  | cur, seg :: rest =>
    match Get store ctx cur with
    | .error err => .error err
    | .ok node =>
      match node.links.lookup seg with
      | some target => walk store ctx target rest
      | none => .ok (cur, seg :: rest)

/-- Modelled from the spec: `ResolveToLastNode` of §4.4 (the resolvers are
missing): the walk from the root of the path along its segments. -/
def ResolveToLastNode (store : String → Option SpecNode) (ctx : Context) (p : SpecPath) :
    Except Error (String × List String) :=
  walk store ctx p.root p.segments

/-- A receiver whose two resolvers and DAG service read the given stores. -/
def storeAPI (namesys : Option NameSystem) (ipldStore unixFSStore : String → Option SpecNode) :
    CoreAPI SpecPath String SpecNode NameSystem where
  namesys := namesys
  ipldPathResolver := ResolveToLastNode ipldStore
  unixFSPathResolver := ResolveToLastNode unixFSStore
  dag := Get unixFSStore

/-! ## Example collaborators -/

/-- The store of §8: `ROOT` links `a` to `N`, and `N` has no links. -/
def exampleStore : String → Option SpecNode := fun id =>
  if id = "ROOT" then some { links := [("a", "N")] }
  else if id = "N" then some { links := [] }
  else none

/-- A store without any node. -/
def emptyStore : String → Option SpecNode := fun _ => none

/-- A store in which `ROOT` links `a` to an identifier holding the separator. -/
def slashStore : String → Option SpecNode := fun id =>
  if id = "ROOT" then some { links := [("a", "x/y")] } else none

/-- A naming system that resolves every name to `/ipfs/ROOT/a/b`. -/
def exampleNamesys : NameSystem := fun _ _ =>
  .ok { ns := "ipfs", root := "ROOT", segments := ["a", "b"] }

/-- A naming system that resolves every name to another mutable name. -/
def mutableNamesys : NameSystem := fun _ _ =>
  .ok { ns := "ipns", root := "other", segments := [] }

/-- A naming system whose lookup fails with a store error. -/
def failingNamesys : NameSystem := fun _ _ =>
  .error (Error.NodeFetchFailed "name")

/-- The receiver of the examples: no naming system, both resolvers over `exampleStore`. -/
def exampleAPI : CoreAPI SpecPath String SpecNode NameSystem :=
  storeAPI none exampleStore exampleStore

/-- A context that is not canceled. -/
def background : Context := { canceled := false }

/-- The path `/ns/root/segments...` as a value. -/
def mkPath (ns root : String) (segments : List String) : SpecPath :=
  { ns := ns, root := root, segments := segments }

/-! ## Facts about the code shared by the claims -/

section Code

variable {Path ImPath Cid Node NameSys : Type}
variable (lib : Lib Path ImPath Cid NameSys) (api : CoreAPI ImPath Cid Node NameSys)

/-- The `switch` picks a resolver exactly for the two content-addressed namespaces. -/
theorem switchNamespace_eq_none_iff (ns : String) :
    switchNamespace ns = none ↔ ns ≠ IPLDNamespace ∧ ns ≠ IPFSNamespace := by
  unfold switchNamespace
  by_cases h1 : ns = IPLDNamespace
  · simp [h1]
  · by_cases h2 : ns = IPFSNamespace
    · simp [h2, IPFSNamespace, IPLDNamespace]
    · simp [h1, h2]

/-- The IPLD namespace selects the IPLD resolver. -/
theorem switchNamespace_ipld : switchNamespace IPLDNamespace = some ResolverKind.ipld := by
  simp [switchNamespace]

/-- The IPFS namespace selects the UnixFS resolver. -/
theorem switchNamespace_ipfs : switchNamespace IPFSNamespace = some ResolverKind.unixFS := by
  simp [switchNamespace, IPFSNamespace, IPLDNamespace]

/-- The outcome of `ResolvePath` once name resolution, the `switch` and the first
`NewImmutablePath` have succeeded and the resolver has failed. -/
theorem ResolvePath_of_resolver_error (ctx : Context) (p p1 : Path) (k : ResolverKind)
    (im : ImPath) (e : Error)
    (hns : lib.ResolveIPNS ctx api.namesys p = .ok p1)
    (hk : switchNamespace (lib.Namespace p1) = some k)
    (him : lib.NewImmutablePath p1 = .ok im)
    (hres : api.resolver k ctx im = .error e) :
    ResolvePath lib api ctx p =
      { path := none, remainder := [], err := some e,
        calls := [Call.ResolveIPNS ctx p, Call.NewImmutablePath p1,
                  Call.ResolveToLastNode k ctx im] } := by
  simp [ResolvePath, hns, hk, him, hres]

/-- The outcome of `ResolvePath` once the resolver has returned a node and a
remainder: it is decided by the two constructors of the path package. -/
theorem ResolvePath_of_resolver_ok (ctx : Context) (p p1 : Path) (k : ResolverKind)
    (im : ImPath) (N : Cid) (r : List String)
    (hns : lib.ResolveIPNS ctx api.namesys p = .ok p1)
    (hk : switchNamespace (lib.Namespace p1) = some k)
    (him : lib.NewImmutablePath p1 = .ok im)
    (hres : api.resolver k ctx im = .ok (N, r)) :
    ResolvePath lib api ctx p =
      (match lib.NewPathFromSegments (lib.Namespace p1 :: lib.CidString N :: r) with
       | .error e =>
         { path := none, remainder := [], err := some e,
           calls := [Call.ResolveIPNS ctx p, Call.NewImmutablePath p1,
                     Call.ResolveToLastNode k ctx im,
                     Call.NewPathFromSegments (lib.Namespace p1 :: lib.CidString N :: r)] }
       | .ok q =>
         match lib.NewImmutablePath q with
         | .error e =>
           { path := none, remainder := [], err := some e,
             calls := [Call.ResolveIPNS ctx p, Call.NewImmutablePath p1,
                       Call.ResolveToLastNode k ctx im,
                       Call.NewPathFromSegments (lib.Namespace p1 :: lib.CidString N :: r),
                       Call.NewImmutablePath q] }
         | .ok P =>
           { path := some P, remainder := r, err := none,
             calls := [Call.ResolveIPNS ctx p, Call.NewImmutablePath p1,
                       Call.ResolveToLastNode k ctx im,
                       Call.NewPathFromSegments (lib.Namespace p1 :: lib.CidString N :: r),
                       Call.NewImmutablePath q] }) := by
  simp only [ResolvePath, hns, hk, him, hres]
  cases hq : lib.NewPathFromSegments (lib.Namespace p1 :: lib.CidString N :: r) with
  | error e => simp [hq]
  | ok q =>
    cases hP : lib.NewImmutablePath q with
    | error e => simp [hq, hP]
    | ok P => simp [hq, hP]

/-- A call of `ResolvePath` that returns a path went through every step: name
resolution, the `switch`, the resolver and the two constructors all succeeded. -/
theorem ResolvePath_path_some (ctx : Context) (p : Path) (P : ImPath)
    (h : (ResolvePath lib api ctx p).path = some P) :
    ∃ p1 k im N r q,
      lib.ResolveIPNS ctx api.namesys p = .ok p1 ∧
      switchNamespace (lib.Namespace p1) = some k ∧
      lib.NewImmutablePath p1 = .ok im ∧
      api.resolver k ctx im = .ok (N, r) ∧
      lib.NewPathFromSegments (lib.Namespace p1 :: lib.CidString N :: r) = .ok q ∧
      lib.NewImmutablePath q = .ok P ∧
      ResolvePath lib api ctx p =
        { path := some P, remainder := r, err := none,
          calls := [Call.ResolveIPNS ctx p, Call.NewImmutablePath p1,
                    Call.ResolveToLastNode k ctx im,
                    Call.NewPathFromSegments (lib.Namespace p1 :: lib.CidString N :: r),
                    Call.NewImmutablePath q] } := by
  cases hns : lib.ResolveIPNS ctx api.namesys p with
  | error e =>
    by_cases he : e = Error.ErrNoNamesys <;> simp [ResolvePath, hns, he] at h
  | ok p1 =>
    cases hk : switchNamespace (lib.Namespace p1) with
    | none => simp [ResolvePath, hns, hk] at h
    | some k =>
      cases him : lib.NewImmutablePath p1 with
      | error e => simp [ResolvePath, hns, hk, him] at h
      | ok im =>
        cases hres : api.resolver k ctx im with
        | error e => simp [ResolvePath, hns, hk, him, hres] at h
        | ok nr =>
          obtain ⟨N, r⟩ := nr
          have hstep := ResolvePath_of_resolver_ok lib api ctx p p1 k im N r hns hk him hres
          cases hq : lib.NewPathFromSegments (lib.Namespace p1 :: lib.CidString N :: r) with
          | error e => rw [hstep, hq] at h; simp at h
          | ok q =>
            cases hP : lib.NewImmutablePath q with
            | error e => rw [hstep, hq] at h; simp [hP] at h
            | ok P2 =>
              rw [hstep, hq] at h
              simp only [hP] at h
              have hPP : P2 = P := by simpa using h
              subst hPP
              refine ⟨p1, k, im, N, r, q, rfl, hk, him, hres, hq, hP, ?_⟩
              rw [hstep, hq]
              simp only [hP]

/-- A call of `ResolvePath` returns a path or an error, never neither and never both. -/
theorem ResolvePath_err_none_iff (ctx : Context) (p : Path) :
    (ResolvePath lib api ctx p).err = none ↔ ∃ P, (ResolvePath lib api ctx p).path = some P := by
  constructor
  · intro h
    cases hns : lib.ResolveIPNS ctx api.namesys p with
    | error e =>
      by_cases he : e = Error.ErrNoNamesys <;> simp [ResolvePath, hns, he] at h
    | ok p1 =>
      cases hk : switchNamespace (lib.Namespace p1) with
      | none => simp [ResolvePath, hns, hk] at h
      | some k =>
        cases him : lib.NewImmutablePath p1 with
        | error e => simp [ResolvePath, hns, hk, him] at h
        | ok im =>
          cases hres : api.resolver k ctx im with
          | error e => simp [ResolvePath, hns, hk, him, hres] at h
          | ok nr =>
            obtain ⟨N, r⟩ := nr
            have hstep := ResolvePath_of_resolver_ok lib api ctx p p1 k im N r hns hk him hres
            cases hq : lib.NewPathFromSegments (lib.Namespace p1 :: lib.CidString N :: r) with
            | error e => rw [hstep, hq] at h; simp at h
            | ok q =>
              cases hP : lib.NewImmutablePath q with
              | error e => rw [hstep, hq] at h; simp [hP] at h
              | ok P2 =>
                refine ⟨P2, ?_⟩
                rw [hstep, hq]
                simp only [hP]
  · rintro ⟨P, hP⟩
    obtain ⟨p1, k, im, N, r, q, -, -, -, -, -, -, heq⟩ := ResolvePath_path_some lib api ctx p P hP
    rw [heq]

/-- The function `ResolvePath` never calls the DAG service. -/
theorem ResolvePath_no_dagGet (ctx : Context) (p : Path) :
    (ResolvePath lib api ctx p).calls.filter Call.isDagGet = [] := by
  cases hns : lib.ResolveIPNS ctx api.namesys p with
  | error e =>
    by_cases he : e = Error.ErrNoNamesys <;>
      simp [ResolvePath, hns, he, Call.isDagGet]
  | ok p1 =>
    cases hk : switchNamespace (lib.Namespace p1) with
    | none => simp [ResolvePath, hns, hk, Call.isDagGet]
    | some k =>
      cases him : lib.NewImmutablePath p1 with
      | error e => simp [ResolvePath, hns, hk, him, Call.isDagGet]
      | ok im =>
        cases hres : api.resolver k ctx im with
        | error e => simp [ResolvePath, hns, hk, him, hres, Call.isDagGet]
        | ok nr =>
          obtain ⟨N, r⟩ := nr
          rw [ResolvePath_of_resolver_ok lib api ctx p p1 k im N r hns hk him hres]
          cases hq : lib.NewPathFromSegments (lib.Namespace p1 :: lib.CidString N :: r) with
          | error e => simp [Call.isDagGet]
          | ok q =>
            cases hP : lib.NewImmutablePath q with
            | error e => simp [hP, Call.isDagGet]
            | ok P2 => simp [hP, Call.isDagGet]

/-- The `switch` selects the IPLD resolver for the IPLD namespace only. -/
theorem switchNamespace_eq_ipld_iff (ns : String) :
    switchNamespace ns = some ResolverKind.ipld ↔ ns = IPLDNamespace := by
  unfold switchNamespace
  by_cases h1 : ns = IPLDNamespace
  · simp [h1]
  · by_cases h2 : ns = IPFSNamespace
    · simp only [if_neg h1, if_pos h2]
      constructor
      · intro h; cases h
      · intro h; exact absurd h h1
    · simp [h1, h2]

/-- The `switch` selects the UnixFS resolver for the IPFS namespace only. -/
theorem switchNamespace_eq_unixFS_iff (ns : String) :
    switchNamespace ns = some ResolverKind.unixFS ↔ ns = IPFSNamespace := by
  unfold switchNamespace
  by_cases h1 : ns = IPLDNamespace
  · simp [h1, IPFSNamespace, IPLDNamespace]
  · by_cases h2 : ns = IPFSNamespace
    · simp only [if_neg h1, if_pos h2]
      exact ⟨fun _ => h2, fun _ => trivial⟩
    · simp [h1, h2]

/-- The outcome of `ResolvePath` as a function of what the selected resolver
answered, once name resolution, the `switch` and the first `NewImmutablePath` have
succeeded. -/
theorem ResolvePath_of_resolver (ctx : Context) (p p1 : Path) (k : ResolverKind)
    (im : ImPath)
    (hns : lib.ResolveIPNS ctx api.namesys p = .ok p1)
    (hk : switchNamespace (lib.Namespace p1) = some k)
    (him : lib.NewImmutablePath p1 = .ok im) :
    ResolvePath lib api ctx p =
      (match api.resolver k ctx im with
       | .error e =>
         { path := none, remainder := [], err := some e,
           calls := [Call.ResolveIPNS ctx p, Call.NewImmutablePath p1,
                     Call.ResolveToLastNode k ctx im] }
       | .ok (N, r) =>
         match lib.NewPathFromSegments (lib.Namespace p1 :: lib.CidString N :: r) with
         | .error e =>
           { path := none, remainder := [], err := some e,
             calls := [Call.ResolveIPNS ctx p, Call.NewImmutablePath p1,
                       Call.ResolveToLastNode k ctx im,
                       Call.NewPathFromSegments (lib.Namespace p1 :: lib.CidString N :: r)] }
         | .ok q =>
           match lib.NewImmutablePath q with
           | .error e =>
             { path := none, remainder := [], err := some e,
               calls := [Call.ResolveIPNS ctx p, Call.NewImmutablePath p1,
                         Call.ResolveToLastNode k ctx im,
                         Call.NewPathFromSegments (lib.Namespace p1 :: lib.CidString N :: r),
                         Call.NewImmutablePath q] }
           | .ok P =>
             { path := some P, remainder := r, err := none,
               calls := [Call.ResolveIPNS ctx p, Call.NewImmutablePath p1,
                         Call.ResolveToLastNode k ctx im,
                         Call.NewPathFromSegments (lib.Namespace p1 :: lib.CidString N :: r),
                         Call.NewImmutablePath q] }) := by
  cases hres : api.resolver k ctx im with
  | error e => exact ResolvePath_of_resolver_error lib api ctx p p1 k im e hns hk him hres
  | ok nr =>
    obtain ⟨N, r⟩ := nr
    exact ResolvePath_of_resolver_ok lib api ctx p p1 k im N r hns hk him hres

/-- The only `ResolveToLastNode` call of `ResolvePath` is the one of the selected
resolver, once name resolution, the `switch` and the first `NewImmutablePath` have
succeeded. -/
theorem ResolvePath_resolver_calls (ctx : Context) (p p1 : Path) (k : ResolverKind)
    (im : ImPath)
    (hns : lib.ResolveIPNS ctx api.namesys p = .ok p1)
    (hk : switchNamespace (lib.Namespace p1) = some k)
    (him : lib.NewImmutablePath p1 = .ok im) :
    (ResolvePath lib api ctx p).calls.filter Call.isResolveToLastNode =
      [Call.ResolveToLastNode k ctx im] := by
  cases hres : api.resolver k ctx im with
  | error e =>
    rw [ResolvePath_of_resolver_error lib api ctx p p1 k im e hns hk him hres]
    simp [Call.isResolveToLastNode]
  | ok nr =>
    obtain ⟨N, r⟩ := nr
    rw [ResolvePath_of_resolver_ok lib api ctx p p1 k im N r hns hk him hres]
    cases hq : lib.NewPathFromSegments (lib.Namespace p1 :: lib.CidString N :: r) with
    | error e => simp [Call.isResolveToLastNode]
    | ok q =>
      cases hP : lib.NewImmutablePath q with
      | error e => simp [hP, Call.isResolveToLastNode]
      | ok P2 => simp [hP, Call.isResolveToLastNode]

/-- When `ResolvePath` fails, `ResolveNode` returns its error and makes no `Get`. -/
theorem ResolveNode_of_err (ctx : Context) (p : Path) (e : Error)
    (he : (ResolvePath lib api ctx p).err = some e) :
    ResolveNode lib api ctx p =
      { node := none, err := some e, calls := (ResolvePath lib api ctx p).calls } ∧
    (ResolveNode lib api ctx p).calls.filter Call.isDagGet = [] := by
  have h : ResolveNode lib api ctx p =
      { node := none, err := some e, calls := (ResolvePath lib api ctx p).calls } := by
    simp [ResolveNode, he]
  refine ⟨h, ?_⟩
  rw [h]
  exact ResolvePath_no_dagGet lib api ctx p

/-- When `ResolvePath` returns the path `rp`, `ResolveNode` makes one `Get`, on the
root of `rp`, and returns what it answers. -/
theorem ResolveNode_of_path (ctx : Context) (p : Path) (rp : ImPath)
    (he : (ResolvePath lib api ctx p).err = none)
    (hrp : (ResolvePath lib api ctx p).path = some rp) :
    ResolveNode lib api ctx p =
      (match api.dag ctx (lib.RootCid rp) with
       | .error e =>
         { node := none, err := some e,
           calls := (ResolvePath lib api ctx p).calls ++ [Call.dagGet ctx (lib.RootCid rp)] }
       | .ok node =>
         { node := some node, err := none,
           calls := (ResolvePath lib api ctx p).calls ++
             [Call.dagGet ctx (lib.RootCid rp)] }) ∧
    (ResolveNode lib api ctx p).calls.filter Call.isDagGet =
      [Call.dagGet ctx (lib.RootCid rp)] := by
  have hnode : ResolveNode lib api ctx p =
      (match api.dag ctx (lib.RootCid rp) with
       | .error e =>
         { node := none, err := some e,
           calls := (ResolvePath lib api ctx p).calls ++ [Call.dagGet ctx (lib.RootCid rp)] }
       | .ok node =>
         { node := some node, err := none,
           calls := (ResolvePath lib api ctx p).calls ++
             [Call.dagGet ctx (lib.RootCid rp)] }) := by
    simp only [ResolveNode, he, hrp]
  refine ⟨hnode, ?_⟩
  rw [hnode]
  have hno := ResolvePath_no_dagGet lib api ctx p
  cases api.dag ctx (lib.RootCid rp) <;> simp [List.filter_append, hno, Call.isDagGet]

end Code

/-! ## The claims settled on the code -/

section Claims

variable {Path ImPath Cid Node NameSys : Type}

/-- C1, as stated, fails: in the store where `ROOT` links `a` to the identifier `x/y`,
the UnixFS resolver resolves `/ipfs/ROOT/a` to that node with an empty remainder and
no error, and `ResolvePath` still fails, because the canonical path cannot be built
from an identifier that holds the separator (lines 73-76; the failure of §4.5). -/
theorem partial_resolution_counterexample :
    specLib.ResolveIPNS background (storeAPI none slashStore slashStore).namesys
        (mkPath "ipfs" "ROOT" ["a"]) = .ok (mkPath "ipfs" "ROOT" ["a"]) ∧
    specLib.Namespace (mkPath "ipfs" "ROOT" ["a"]) = IPFSNamespace ∧
    specLib.NewImmutablePath (mkPath "ipfs" "ROOT" ["a"]) = .ok (mkPath "ipfs" "ROOT" ["a"]) ∧
    (storeAPI none slashStore slashStore).unixFSPathResolver background
        (mkPath "ipfs" "ROOT" ["a"]) = .ok ("x/y", []) ∧
    (ResolvePath specLib (storeAPI none slashStore slashStore) background
        (mkPath "ipfs" "ROOT" ["a"])).err = some Error.MalformedPath ∧
    (ResolvePath specLib (storeAPI none slashStore slashStore) background
        (mkPath "ipfs" "ROOT" ["a"])).path = none := by
  refine ⟨rfl, rfl, rfl, rfl, rfl, rfl⟩

/-- C1 (amended): partial resolution is not an error. When name resolution yields a
path `p1` for which the `switch` selects a resolver (its namespace is ipfs or ipld),
that resolver returns a node `N` and a remainder `r` (empty or not) with no error, and
the two constructors of the path package accept `[ns, N.String(), r...]`, then
`ResolvePath` returns the built path, exactly `r` as remainder and a nil error. -/
theorem partial_resolution_is_not_an_error (lib : Lib Path ImPath Cid NameSys)
    (api : CoreAPI ImPath Cid Node NameSys) (ctx : Context) (p p1 q : Path)
    (k : ResolverKind) (im P : ImPath) (N : Cid) (r : List String)
    (hns : lib.ResolveIPNS ctx api.namesys p = .ok p1)
    (hk : switchNamespace (lib.Namespace p1) = some k)
    (him : lib.NewImmutablePath p1 = .ok im)
    (hres : api.resolver k ctx im = .ok (N, r))
    (hq : lib.NewPathFromSegments (lib.Namespace p1 :: lib.CidString N :: r) = .ok q)
    (hP : lib.NewImmutablePath q = .ok P) :
    ResolvePath lib api ctx p =
      { path := some P, remainder := r, err := none,
        calls := [Call.ResolveIPNS ctx p, Call.NewImmutablePath p1,
                  Call.ResolveToLastNode k ctx im,
                  Call.NewPathFromSegments (lib.Namespace p1 :: lib.CidString N :: r),
                  Call.NewImmutablePath q] } := by
  rw [ResolvePath_of_resolver_ok lib api ctx p p1 k im N r hns hk him hres, hq]
  simp only [hP]

/-- The example of §8: `/ipfs/ROOT/a/b`, where `ROOT` links `a` to `N` and `N` has no
link `b`, resolves to `/ipfs/N/b` with remainder `["b"]` and no error. -/
theorem partial_resolution_is_not_an_error_witness :
    ResolvePath specLib exampleAPI background (mkPath "ipfs" "ROOT" ["a", "b"]) =
      { path := some (mkPath "ipfs" "N" ["b"]), remainder := ["b"], err := none,
        calls := [Call.ResolveIPNS background (mkPath "ipfs" "ROOT" ["a", "b"]),
                  Call.NewImmutablePath (mkPath "ipfs" "ROOT" ["a", "b"]),
                  Call.ResolveToLastNode ResolverKind.unixFS background
                    (mkPath "ipfs" "ROOT" ["a", "b"]),
                  Call.NewPathFromSegments ["ipfs", "N", "b"],
                  Call.NewImmutablePath (mkPath "ipfs" "N" ["b"])] } :=
  partial_resolution_is_not_an_error specLib exampleAPI background
    (mkPath "ipfs" "ROOT" ["a", "b"]) (mkPath "ipfs" "ROOT" ["a", "b"])
    (mkPath "ipfs" "N" ["b"]) ResolverKind.unixFS (mkPath "ipfs" "ROOT" ["a", "b"])
    (mkPath "ipfs" "N" ["b"]) "N" ["b"] rfl rfl rfl rfl rfl rfl

/-- C2: a failure of the selected resolver propagates. When `ResolveToLastNode` of the
selected resolver returns the error `e`, `ResolvePath` returns exactly `e`, a nil path
and a nil remainder, and its calls are the name resolution, one `NewImmutablePath`
and the resolver call: `NewPathFromSegments` is never called. -/
theorem fetch_failure_propagates (lib : Lib Path ImPath Cid NameSys)
    (api : CoreAPI ImPath Cid Node NameSys) (ctx : Context) (p p1 : Path)
    (k : ResolverKind) (im : ImPath) (e : Error)
    (hns : lib.ResolveIPNS ctx api.namesys p = .ok p1)
    (hk : switchNamespace (lib.Namespace p1) = some k)
    (him : lib.NewImmutablePath p1 = .ok im)
    (hres : api.resolver k ctx im = .error e) :
    ResolvePath lib api ctx p =
      { path := none, remainder := [], err := some e,
        calls := [Call.ResolveIPNS ctx p, Call.NewImmutablePath p1,
                  Call.ResolveToLastNode k ctx im] } ∧
    (ResolvePath lib api ctx p).calls.filter Call.isNewPathFromSegments = [] := by
  rw [ResolvePath_of_resolver_error lib api ctx p p1 k im e hns hk him hres]
  simp [Call.isNewPathFromSegments]

/-- In the empty store the fetch of `ROOT` fails: `/ipfs/ROOT/a` fails with
`NodeFetchFailed` for `ROOT` and no path is built. -/
theorem fetch_failure_propagates_witness :
    ResolvePath specLib (storeAPI none emptyStore emptyStore) background
        (mkPath "ipfs" "ROOT" ["a"]) =
      { path := none, remainder := [], err := some (Error.NodeFetchFailed "ROOT"),
        calls := [Call.ResolveIPNS background (mkPath "ipfs" "ROOT" ["a"]),
                  Call.NewImmutablePath (mkPath "ipfs" "ROOT" ["a"]),
                  Call.ResolveToLastNode ResolverKind.unixFS background
                    (mkPath "ipfs" "ROOT" ["a"])] } ∧
    (ResolvePath specLib (storeAPI none emptyStore emptyStore) background
        (mkPath "ipfs" "ROOT" ["a"])).calls.filter Call.isNewPathFromSegments = [] :=
  fetch_failure_propagates specLib (storeAPI none emptyStore emptyStore) background
    (mkPath "ipfs" "ROOT" ["a"]) (mkPath "ipfs" "ROOT" ["a"]) ResolverKind.unixFS
    (mkPath "ipfs" "ROOT" ["a"]) (Error.NodeFetchFailed "ROOT") rfl rfl rfl rfl

/-- C3: an unsupported namespace is rejected. When the namespace of the path after name
resolution is neither the IPLD nor the IPFS namespace, `ResolvePath` returns the
error made by `fmt.Errorf("unsupported path namespace: %s", ns)`, a nil path and a
nil remainder, and its only call is the name resolution: neither resolver is
invoked. -/
theorem unsupported_namespace_rejected (lib : Lib Path ImPath Cid NameSys)
    (api : CoreAPI ImPath Cid Node NameSys) (ctx : Context) (p p1 : Path)
    (hns : lib.ResolveIPNS ctx api.namesys p = .ok p1)
    (hipld : lib.Namespace p1 ≠ IPLDNamespace)
    (hipfs : lib.Namespace p1 ≠ IPFSNamespace) :
    ResolvePath lib api ctx p =
      { path := none, remainder := [],
        err := some (Error.Errorf ("unsupported path namespace: " ++ lib.Namespace p1)),
        calls := [Call.ResolveIPNS ctx p] } ∧
    (ResolvePath lib api ctx p).calls.filter Call.isResolveToLastNode = [] := by
  have hk : switchNamespace (lib.Namespace p1) = none :=
    (switchNamespace_eq_none_iff _).2 ⟨hipld, hipfs⟩
  have h : ResolvePath lib api ctx p =
      { path := none, remainder := [],
        err := some (Error.Errorf ("unsupported path namespace: " ++ lib.Namespace p1)),
        calls := [Call.ResolveIPNS ctx p] } := by
    simp [ResolvePath, hns, hk]
  rw [h]
  simp [Call.isResolveToLastNode]

/-- A name that resolves to a path in the mutable naming namespace is rejected by the
`switch`, and no resolver runs. -/
theorem unsupported_namespace_rejected_witness :
    ResolvePath specLib
        (storeAPI (some mutableNamesys) exampleStore exampleStore)
        background (mkPath "ipns" "name" []) =
      { path := none, remainder := [],
        err := some (Error.Errorf "unsupported path namespace: ipns"),
        calls := [Call.ResolveIPNS background (mkPath "ipns" "name" [])] } ∧
    (ResolvePath specLib
        (storeAPI (some mutableNamesys) exampleStore exampleStore)
        background (mkPath "ipns" "name" [])).calls.filter Call.isResolveToLastNode = [] :=
  unsupported_namespace_rejected specLib
    (storeAPI (some mutableNamesys) exampleStore exampleStore)
    background (mkPath "ipns" "name" []) (mkPath "ipns" "other" []) rfl
    (by decide) (by decide)

/-- C4: offline mutable resolution. When `resolve.ResolveIPNS` reports the sentinel
`ErrNoNamesys`, `ResolvePath` returns exactly `coreiface.ErrOffline`, a nil path and
a nil remainder, and its only call is the name resolution: no resolver is invoked. -/
theorem offline_mutable_resolution (lib : Lib Path ImPath Cid NameSys)
    (api : CoreAPI ImPath Cid Node NameSys) (ctx : Context) (p : Path)
    (hns : lib.ResolveIPNS ctx api.namesys p = .error Error.ErrNoNamesys) :
    ResolvePath lib api ctx p =
      { path := none, remainder := [], err := some Error.ErrOffline,
        calls := [Call.ResolveIPNS ctx p] } ∧
    (ResolvePath lib api ctx p).calls.filter Call.isResolveToLastNode = [] := by
  have h : ResolvePath lib api ctx p =
      { path := none, remainder := [], err := some Error.ErrOffline,
        calls := [Call.ResolveIPNS ctx p] } := by
    simp [ResolvePath, hns]
  rw [h]
  simp [Call.isResolveToLastNode]

/-- A path in the mutable naming namespace with no naming system configured fails with
`ErrOffline`. -/
theorem offline_mutable_resolution_witness :
    ResolvePath specLib exampleAPI background (mkPath "ipns" "name" ["a"]) =
      { path := none, remainder := [], err := some Error.ErrOffline,
        calls := [Call.ResolveIPNS background (mkPath "ipns" "name" ["a"])] } ∧
    (ResolvePath specLib exampleAPI background
        (mkPath "ipns" "name" ["a"])).calls.filter Call.isResolveToLastNode = [] :=
  offline_mutable_resolution specLib exampleAPI background (mkPath "ipns" "name" ["a"]) rfl

/-- C5: errors of the naming system are propagated unchanged. When name resolution
returns an error `e` other than the sentinel `ErrNoNamesys`, `ResolvePath` returns
exactly `e`, a nil path and a nil remainder, and its only call is the one name
resolution: the lookup is not repeated and no resolver is invoked. -/
theorem namesys_error_propagated (lib : Lib Path ImPath Cid NameSys)
    (api : CoreAPI ImPath Cid Node NameSys) (ctx : Context) (p : Path) (e : Error)
    (hns : lib.ResolveIPNS ctx api.namesys p = .error e)
    (he : e ≠ Error.ErrNoNamesys) :
    ResolvePath lib api ctx p =
      { path := none, remainder := [], err := some e, calls := [Call.ResolveIPNS ctx p] } ∧
    (ResolvePath lib api ctx p).calls.filter Call.isResolveToLastNode = [] := by
  have h : ResolvePath lib api ctx p =
      { path := none, remainder := [], err := some e, calls := [Call.ResolveIPNS ctx p] } := by
    simp [ResolvePath, hns, he]
  rw [h]
  simp [Call.isResolveToLastNode]

/-- A naming system whose lookup fails: its error comes back as it is. -/
theorem namesys_error_propagated_witness :
    ResolvePath specLib (storeAPI (some failingNamesys) exampleStore exampleStore) background
        (mkPath "ipns" "name" []) =
      { path := none, remainder := [], err := some (Error.NodeFetchFailed "name"),
        calls := [Call.ResolveIPNS background (mkPath "ipns" "name" [])] } ∧
    (ResolvePath specLib (storeAPI (some failingNamesys) exampleStore exampleStore) background
        (mkPath "ipns" "name" [])).calls.filter Call.isResolveToLastNode = [] :=
  namesys_error_propagated specLib (storeAPI (some failingNamesys) exampleStore exampleStore)
    background (mkPath "ipns" "name" []) (Error.NodeFetchFailed "name") rfl (by decide)

/-- C6: the namespace dispatcher. Let `p1` be the path after name resolution and `im`
its immutable form. If the namespace of `p1` is the IPLD namespace, the outcome of
`ResolvePath` is decided by what `api.ipldPathResolver.ResolveToLastNode` answers
on `im` (its error is returned, its node and remainder go into the canonical path),
the only `ResolveToLastNode` call is that one call, and the outcome is the same
whatever the UnixFS resolver is. If it is the IPFS namespace, the same holds with
`api.unixFSPathResolver` in place of the IPLD resolver, whatever the IPLD resolver
is. -/
theorem namespace_dispatch (lib : Lib Path ImPath Cid NameSys)
    (api : CoreAPI ImPath Cid Node NameSys) (ctx : Context) (p p1 : Path) (im : ImPath)
    (hns : lib.ResolveIPNS ctx api.namesys p = .ok p1)
    (him : lib.NewImmutablePath p1 = .ok im) :
    (lib.Namespace p1 = IPLDNamespace →
      ResolvePath lib api ctx p =
        (match api.ipldPathResolver ctx im with
         | .error e =>
           { path := none, remainder := [], err := some e,
             calls := [Call.ResolveIPNS ctx p, Call.NewImmutablePath p1,
                       Call.ResolveToLastNode ResolverKind.ipld ctx im] }
         | .ok (N, r) =>
           match lib.NewPathFromSegments (lib.Namespace p1 :: lib.CidString N :: r) with
           | .error e =>
             { path := none, remainder := [], err := some e,
               calls := [Call.ResolveIPNS ctx p, Call.NewImmutablePath p1,
                         Call.ResolveToLastNode ResolverKind.ipld ctx im,
                         Call.NewPathFromSegments
                           (lib.Namespace p1 :: lib.CidString N :: r)] }
           | .ok q =>
             match lib.NewImmutablePath q with
             | .error e =>
               { path := none, remainder := [], err := some e,
                 calls := [Call.ResolveIPNS ctx p, Call.NewImmutablePath p1,
                           Call.ResolveToLastNode ResolverKind.ipld ctx im,
                           Call.NewPathFromSegments
                             (lib.Namespace p1 :: lib.CidString N :: r),
                           Call.NewImmutablePath q] }
             | .ok P =>
               { path := some P, remainder := r, err := none,
                 calls := [Call.ResolveIPNS ctx p, Call.NewImmutablePath p1,
                           Call.ResolveToLastNode ResolverKind.ipld ctx im,
                           Call.NewPathFromSegments
                             (lib.Namespace p1 :: lib.CidString N :: r),
                           Call.NewImmutablePath q] }) ∧
      (ResolvePath lib api ctx p).calls.filter Call.isResolveToLastNode =
        [Call.ResolveToLastNode ResolverKind.ipld ctx im] ∧
      ∀ f, ResolvePath lib { api with unixFSPathResolver := f } ctx p =
        ResolvePath lib api ctx p) ∧
    (lib.Namespace p1 = IPFSNamespace →
      ResolvePath lib api ctx p =
        (match api.unixFSPathResolver ctx im with
         | .error e =>
           { path := none, remainder := [], err := some e,
             calls := [Call.ResolveIPNS ctx p, Call.NewImmutablePath p1,
                       Call.ResolveToLastNode ResolverKind.unixFS ctx im] }
         | .ok (N, r) =>
           match lib.NewPathFromSegments (lib.Namespace p1 :: lib.CidString N :: r) with
           | .error e =>
             { path := none, remainder := [], err := some e,
               calls := [Call.ResolveIPNS ctx p, Call.NewImmutablePath p1,
                         Call.ResolveToLastNode ResolverKind.unixFS ctx im,
                         Call.NewPathFromSegments
                           (lib.Namespace p1 :: lib.CidString N :: r)] }
           | .ok q =>
             match lib.NewImmutablePath q with
             | .error e =>
               { path := none, remainder := [], err := some e,
                 calls := [Call.ResolveIPNS ctx p, Call.NewImmutablePath p1,
                           Call.ResolveToLastNode ResolverKind.unixFS ctx im,
                           Call.NewPathFromSegments
                             (lib.Namespace p1 :: lib.CidString N :: r),
                           Call.NewImmutablePath q] }
             | .ok P =>
               { path := some P, remainder := r, err := none,
                 calls := [Call.ResolveIPNS ctx p, Call.NewImmutablePath p1,
                           Call.ResolveToLastNode ResolverKind.unixFS ctx im,
                           Call.NewPathFromSegments
                             (lib.Namespace p1 :: lib.CidString N :: r),
                           Call.NewImmutablePath q] }) ∧
      (ResolvePath lib api ctx p).calls.filter Call.isResolveToLastNode =
        [Call.ResolveToLastNode ResolverKind.unixFS ctx im] ∧
      ∀ f, ResolvePath lib { api with ipldPathResolver := f } ctx p =
        ResolvePath lib api ctx p) := by
  constructor
  · intro h
    have hk : switchNamespace (lib.Namespace p1) = some ResolverKind.ipld := by
      rw [h]; exact switchNamespace_ipld
    refine ⟨ResolvePath_of_resolver lib api ctx p p1 _ im hns hk him,
      ResolvePath_resolver_calls lib api ctx p p1 _ im hns hk him, fun f => ?_⟩
    simp only [ResolvePath, hns, hk, him, CoreAPI.resolver]
  · intro h
    have hk : switchNamespace (lib.Namespace p1) = some ResolverKind.unixFS := by
      rw [h]; exact switchNamespace_ipfs
    refine ⟨ResolvePath_of_resolver lib api ctx p p1 _ im hns hk him,
      ResolvePath_resolver_calls lib api ctx p p1 _ im hns hk him, fun f => ?_⟩
    simp only [ResolvePath, hns, hk, him, CoreAPI.resolver]

/-- A receiver whose IPLD resolver reads the store of §8 and whose UnixFS resolver
reads an empty store: `/ipld/ROOT/a` is resolved by the IPLD resolver to `/ipld/N`,
and `/ipfs/ROOT/a` goes to the UnixFS resolver, whose fetch of `ROOT` fails. -/
theorem namespace_dispatch_witness :
    ResolvePath specLib (storeAPI none exampleStore emptyStore) background
        (mkPath "ipld" "ROOT" ["a"]) =
      { path := some (mkPath "ipld" "N" []), remainder := [], err := none,
        calls := [Call.ResolveIPNS background (mkPath "ipld" "ROOT" ["a"]),
                  Call.NewImmutablePath (mkPath "ipld" "ROOT" ["a"]),
                  Call.ResolveToLastNode ResolverKind.ipld background
                    (mkPath "ipld" "ROOT" ["a"]),
                  Call.NewPathFromSegments ["ipld", "N"],
                  Call.NewImmutablePath (mkPath "ipld" "N" [])] } ∧
    ResolvePath specLib (storeAPI none exampleStore emptyStore) background
        (mkPath "ipfs" "ROOT" ["a"]) =
      { path := none, remainder := [], err := some (Error.NodeFetchFailed "ROOT"),
        calls := [Call.ResolveIPNS background (mkPath "ipfs" "ROOT" ["a"]),
                  Call.NewImmutablePath (mkPath "ipfs" "ROOT" ["a"]),
                  Call.ResolveToLastNode ResolverKind.unixFS background
                    (mkPath "ipfs" "ROOT" ["a"])] } :=
  ⟨((namespace_dispatch specLib (storeAPI none exampleStore emptyStore) background
      (mkPath "ipld" "ROOT" ["a"]) (mkPath "ipld" "ROOT" ["a"]) (mkPath "ipld" "ROOT" ["a"])
      rfl rfl).1 rfl).1,
   ((namespace_dispatch specLib (storeAPI none exampleStore emptyStore) background
      (mkPath "ipfs" "ROOT" ["a"]) (mkPath "ipfs" "ROOT" ["a"]) (mkPath "ipfs" "ROOT" ["a"])
      rfl rfl).2 rfl).1⟩

end Claims

/-! ## Facts about the path model of the specification -/

section PathModel

/-- An immutable path is the path it was made from, outside the mutable namespace. -/
theorem NewImmutablePath_ok (p q : SpecPath) (h : NewImmutablePath p = .ok q) :
    q = p ∧ p.ns ≠ IPNSNamespace := by
  unfold NewImmutablePath at h
  split at h
  · cases h
  · rename_i hne
    injection h with h
    exact ⟨h.symm, hne⟩

/-- No piece of a split list holds an element the split is made on. -/
theorem splitOnP_forall_not {α : Type} (f : α → Bool) (xs : List α) :
    ∀ l ∈ xs.splitOnP f, ∀ y ∈ l, f y = false := by
  induction xs with
  | nil => simp
  | cons x xs ih =>
    rw [List.splitOnP_cons]
    split
    · intro l hl
      rcases List.mem_cons.1 hl with rfl | hl
      · simp
      · exact ih l hl
    · rename_i hx
      cases hs : xs.splitOnP f with
      | nil => simp
      | cons h t =>
        rw [hs] at ih
        intro l hl
        simp only [List.modifyHead_cons, List.mem_cons] at hl
        rcases hl with rfl | hl
        · intro y hy
          rcases List.mem_cons.1 hy with rfl | hy
          · simpa using hx
          · exact ih h (List.mem_cons_self _ _) y hy
        · exact ih l (List.mem_cons_of_mem _ hl)

/-- The segments of a text are never empty and never hold the separator. -/
theorem StringToSegments_clean (s : String) :
    ∀ x ∈ StringToSegments s, x.data ≠ [] ∧ separator ∉ x.data := by
  intro x hx
  unfold StringToSegments at hx
  obtain ⟨l, hl, rfl⟩ := List.mem_map.1 hx
  obtain ⟨hl1, hl2⟩ := List.mem_filter.1 hl
  constructor
  · intro h
    change l = [] at h
    subst h
    simp at hl2
  · intro hmem
    have := splitOnP_forall_not (fun c => c == separator) s.data l hl1 separator hmem
    simp at this

/-- Splitting at a leading separator gives an empty first piece. -/
theorem splitOn_separator_cons (X : List Char) :
    (separator :: X).splitOn separator = [] :: X.splitOn separator := by
  simp [List.splitOn, List.splitOnP_cons]

/-- Splitting after a piece without separator gives that piece first. -/
theorem splitOn_append_separator (a Y : List Char) (ha : separator ∉ a) :
    (a ++ separator :: Y).splitOn separator = a :: Y.splitOn separator := by
  have := List.splitOnP_first (fun c => c == separator) a
    (by intro x hx h; simp at h; exact ha (h ▸ hx)) separator (by simp) Y
  simpa [List.splitOn] using this

/-- The segments of the text of a list that starts with a segment that is not
empty and does not hold the separator: that segment, then the segments of the text
of the others. -/
theorem StringToSegments_cons (s : String) (rest : List String)
    (hs : s.data ≠ [] ∧ separator ∉ s.data) :
    StringToSegments (SegmentsToString (s :: rest)) =
      s :: StringToSegments (SegmentsToString rest) := by
  have hemp : (!s.data.isEmpty) = true := by
    cases hd : s.data with
    | nil => exact absurd hd hs.1
    | cons a t => rfl
  cases rest with
  | nil =>
    have h1 : (s.data).splitOn separator = [s.data] := by
      have := List.splitOn_intercalate [s.data] separator (by simpa using hs.2) (by simp)
      simpa [List.intercalate] using this
    simp only [StringToSegments, SegmentsToString, List.map_cons, List.map_nil,
      splitOn_separator_cons]
    have h2 : List.intercalate [separator] [s.data] = s.data := by simp [List.intercalate]
    have h3 : List.intercalate [separator] ([] : List (List Char)) = [] := by
      simp [List.intercalate]
    rw [h2, h1, h3]
    simp [List.filter, hemp]
  | cons t rest =>
    have h2 : List.intercalate [separator] (s.data :: t.data :: rest.map String.data) =
        s.data ++ separator ::
          List.intercalate [separator] (t.data :: rest.map String.data) := by
      simp [List.intercalate, List.intersperse]
    simp only [StringToSegments, SegmentsToString, List.map_cons, splitOn_separator_cons]
    rw [h2, splitOn_append_separator _ _ hs.2]
    simp [List.filter, hemp]

/-- Splitting the text of a list of segments gives the list back when none of the
segments is empty or holds the separator. -/
theorem StringToSegments_SegmentsToString (segs : List String)
    (h : ∀ s ∈ segs, s.data ≠ [] ∧ separator ∉ s.data) :
    StringToSegments (SegmentsToString segs) = segs := by
  induction segs with
  | nil => rfl
  | cons s rest ih =>
    rw [StringToSegments_cons s rest (h s (List.mem_cons_self _ _)),
      ih (fun x hx => h x (List.mem_cons_of_mem _ hx))]

/-- A path built from a list of segments has the first two as namespace and root,
both checked, and below the root the segments of the text of the others. -/
theorem NewPathFromSegments_ok (segs : List String) (q : SpecPath)
    (h : NewPathFromSegments segs = .ok q) :
    ∃ rest, segs = q.ns :: q.root :: rest ∧
      q.segments = StringToSegments (SegmentsToString rest) ∧
      recognizedNamespace q.ns = true ∧ validIdentifier q.root = true := by
  unfold NewPathFromSegments at h
  split at h
  · rename_i ns root rest
    split at h
    · rename_i hv
      injection h with h
      subst h
      simp only [Bool.and_eq_true] at hv
      exact ⟨rest, rfl, rfl, hv.1, hv.2⟩
    · cases h
  · cases h

/-- Building from the segments of a checked path gives the path back. -/
theorem NewPathFromSegments_Segments (q : SpecPath)
    (hns : recognizedNamespace q.ns = true) (hid : validIdentifier q.root = true)
    (hseg : ∀ s ∈ q.segments, s.data ≠ [] ∧ separator ∉ s.data) :
    NewPathFromSegments (Segments q) = .ok q := by
  simp [NewPathFromSegments, Segments, hns, hid, StringToSegments_SegmentsToString _ hseg]

/-- The path library of the specification returns as root the identifier it was given. -/
theorem specLib_root (ns N : String) (r : List String) (q P : SpecPath)
    (hq : specLib.NewPathFromSegments (ns :: specLib.CidString N :: r) = .ok q)
    (hP : specLib.NewImmutablePath q = .ok P) : specLib.RootCid P = N := by
  obtain ⟨rest, h1, -, -, -⟩ := NewPathFromSegments_ok (ns :: N :: r) q hq
  have h2 := (NewImmutablePath_ok q P hP).1
  subst h2
  simp only [List.cons.injEq] at h1
  exact h1.2.1.symm

/-- A recognized namespace tag is not empty and does not hold the separator. -/
theorem recognizedNamespace_clean (ns : String) (h : recognizedNamespace ns = true) :
    ns.data ≠ [] ∧ separator ∉ ns.data := by
  simp only [recognizedNamespace, Bool.or_eq_true, decide_eq_true_eq] at h
  rcases h with (h | h) | h <;> subst h <;> decide

/-- A valid identifier is not empty and does not hold the separator. -/
theorem validIdentifier_clean (id : String) (h : validIdentifier id = true) :
    id.data ≠ [] ∧ separator ∉ id.data := by
  simp only [validIdentifier, Bool.and_eq_true, Bool.not_eq_true', List.isEmpty_eq_false,
    List.all_eq_true, decide_eq_false_iff_not] at h
  exact ⟨h.1, fun hmem => (h.2 _ hmem).2 rfl⟩

/-- The two entry points agree: where the list constructor accepts the namespace tag
and the identifier, it builds the path the string constructor builds for the text
of the list. -/
theorem NewPath_SegmentsToString (ns root : String) (rest : List String)
    (hns : recognizedNamespace ns = true) (hid : validIdentifier root = true) :
    NewPath (SegmentsToString (ns :: root :: rest)) =
      NewPathFromSegments (ns :: root :: rest) := by
  unfold NewPath
  rw [StringToSegments_cons ns _ (recognizedNamespace_clean ns hns),
    StringToSegments_cons root _ (validIdentifier_clean root hid)]
  simp [NewPathFromSegments, hns, hid,
    StringToSegments_SegmentsToString _ (StringToSegments_clean (SegmentsToString rest))]

/-- The path `ResolvePath` returns under the path model of the specification: its
namespace is that of the path after name resolution, its root the node the
resolver returned, and below the root it holds the segments of the text of the
remainder. -/
theorem ResolvePath_specLib_path {Node : Type}
    (api : CoreAPI SpecPath String Node NameSystem) (ctx : Context) (p P : SpecPath)
    (hP : (ResolvePath specLib api ctx p).path = some P) :
    ∃ p1 k N r,
      ResolveIPNS ctx api.namesys p = .ok p1 ∧
      switchNamespace p1.ns = some k ∧
      api.resolver k ctx p1 = .ok (N, r) ∧
      P = { ns := p1.ns, root := N, segments := StringToSegments (SegmentsToString r) } ∧
      recognizedNamespace P.ns = true ∧ validIdentifier P.root = true ∧
      (ResolvePath specLib api ctx p).remainder = r ∧
      (ResolvePath specLib api ctx p).err = none := by
  obtain ⟨p1, k, im, N, r, q, hns, hk, him, hres, hq, hPq, heq⟩ :=
    ResolvePath_path_some specLib api ctx p P hP
  have e3 : im = p1 := (NewImmutablePath_ok p1 im him).1
  subst e3
  have e5 : P = q := (NewImmutablePath_ok q P hPq).1
  subst e5
  obtain ⟨rest, h1, h2, hrec, hval⟩ := NewPathFromSegments_ok (im.ns :: N :: r) P hq
  simp only [List.cons.injEq] at h1
  obtain ⟨h1a, h1b, h1c⟩ := h1
  subst h1c
  refine ⟨im, k, N, r, hns, hk, hres, ?_, hrec, hval, ?_, ?_⟩
  · cases P
    simp only [SpecPath.mk.injEq]
    exact ⟨h1a.symm, h1b.symm, h2⟩
  · rw [heq]
  · rw [heq]

end PathModel

/-! ## The claims about path values -/

section PathClaims

variable {Node : Type}

/-- C7, as stated, fails: for `/ipfs/ROOT` followed by one empty segment (the edge case
of §4.4) the resolver returns the node `ROOT` and that empty segment as remainder;
`ResolvePath` succeeds and returns this remainder, but the canonical path is
`/ipfs/ROOT`: its segments are not `ipfs`, `ROOT` and the remainder, and from the
third onward they are not the remainder. -/
theorem canonical_path_shape_counterexample :
    exampleAPI.unixFSPathResolver background (mkPath "ipfs" "ROOT" [""]) =
      .ok ("ROOT", [""]) ∧
    ResolvePath specLib exampleAPI background (mkPath "ipfs" "ROOT" [""]) =
      { path := some (mkPath "ipfs" "ROOT" []), remainder := [""], err := none,
        calls := [Call.ResolveIPNS background (mkPath "ipfs" "ROOT" [""]),
                  Call.NewImmutablePath (mkPath "ipfs" "ROOT" [""]),
                  Call.ResolveToLastNode ResolverKind.unixFS background
                    (mkPath "ipfs" "ROOT" [""]),
                  Call.NewPathFromSegments ["ipfs", "ROOT", ""],
                  Call.NewImmutablePath (mkPath "ipfs" "ROOT" [])] } ∧
    Segments (mkPath "ipfs" "ROOT" []) ≠ "ipfs" :: "ROOT" :: [""] ∧
    [""] ≠ (Segments (mkPath "ipfs" "ROOT" [])).drop 2 := by
  refine ⟨rfl, rfl, by decide, by decide⟩

/-- C7 (amended): the shape of the canonical path. For every call of `ResolvePath` that
returns a path `P`: with `p1` the path after name resolution and `(N, r)` the node
and remainder the selected resolver returned, if no segment of `r` is empty or
holds the separator, the segments of `P` are the namespace of `p1`, then
`N.String()`, then the segments of `r` in order; the remainder returned is `r`,
which is the segments of `P` from the third onward, and the error is nil. -/
theorem canonical_path_shape (api : CoreAPI SpecPath String Node NameSystem)
    (ctx : Context) (p p1 P : SpecPath) (k : ResolverKind) (N : String) (r : List String)
    (hns : ResolveIPNS ctx api.namesys p = .ok p1)
    (hk : switchNamespace p1.ns = some k)
    (hres : api.resolver k ctx p1 = .ok (N, r))
    (hclean : ∀ s ∈ r, s.data ≠ [] ∧ separator ∉ s.data)
    (hP : (ResolvePath specLib api ctx p).path = some P) :
    Segments P = p1.ns :: N :: r ∧
    (ResolvePath specLib api ctx p).remainder = r ∧
    (ResolvePath specLib api ctx p).remainder = (Segments P).drop 2 ∧
    (ResolvePath specLib api ctx p).err = none := by
  obtain ⟨p1', k', N', r', hns', hk', hres', hPeq, -, -, hrem, herr⟩ :=
    ResolvePath_specLib_path api ctx p P hP
  have e1 : p1' = p1 := by
    have : (Except.ok p1' : Except Error SpecPath) = .ok p1 := hns'.symm.trans hns
    injection this
  subst e1
  have e2 : k' = k := by
    have : some k' = some k := hk'.symm.trans hk
    injection this
  subst e2
  have e4 : (N', r') = (N, r) := by
    have : (Except.ok (N', r') : Except Error (String × List String)) = .ok (N, r) :=
      hres'.symm.trans hres
    injection this
  obtain ⟨rfl, rfl⟩ := Prod.mk.inj e4
  have hseg : Segments P = p1'.ns :: N' :: r' := by
    rw [hPeq, StringToSegments_SegmentsToString r' hclean]
    rfl
  refine ⟨hseg, hrem, ?_, herr⟩
  rw [hrem, hseg]
  rfl

/-- A mutable name that resolves to `/ipfs/ROOT/a/b`: the canonical path starts with
the namespace after name resolution, `ipfs`, not with `ipns`. -/
theorem canonical_path_shape_witness :
    Segments (mkPath "ipfs" "N" ["b"]) = ["ipfs", "N", "b"] ∧
    (ResolvePath specLib
        (storeAPI (some exampleNamesys) exampleStore exampleStore)
        background (mkPath "ipns" "name" [])).remainder = ["b"] ∧
    (ResolvePath specLib
        (storeAPI (some exampleNamesys) exampleStore exampleStore)
        background (mkPath "ipns" "name" [])).remainder =
      (Segments (mkPath "ipfs" "N" ["b"])).drop 2 ∧
    (ResolvePath specLib
        (storeAPI (some exampleNamesys) exampleStore exampleStore)
        background (mkPath "ipns" "name" [])).err = none :=
  canonical_path_shape
    (storeAPI (some exampleNamesys) exampleStore exampleStore)
    background (mkPath "ipns" "name" []) (mkPath "ipfs" "ROOT" ["a", "b"])
    (mkPath "ipfs" "N" ["b"]) ResolverKind.unixFS "N" ["b"] rfl rfl rfl (by decide) rfl

/-- C8: round trip. For every path `P` that `ResolvePath` returns, parsing the text of
`P` with the string constructor of the path model succeeds and yields `P` itself:
same namespace, same root identifier, same segments. -/
theorem round_trip (api : CoreAPI SpecPath String Node NameSystem)
    (ctx : Context) (p P : SpecPath)
    (hP : (ResolvePath specLib api ctx p).path = some P) :
    NewPath (PathString P) = .ok P := by
  obtain ⟨p1, k, N, r, -, -, -, hPeq, hrec, hval, -, -⟩ :=
    ResolvePath_specLib_path api ctx p P hP
  have hsegs : ∀ s ∈ P.segments, s.data ≠ [] ∧ separator ∉ s.data := by
    rw [hPeq]
    exact StringToSegments_clean _
  have hall : ∀ s ∈ Segments P, s.data ≠ [] ∧ separator ∉ s.data := by
    intro s hs
    simp only [Segments, List.mem_cons] at hs
    rcases hs with rfl | rfl | hs
    · exact recognizedNamespace_clean _ hrec
    · exact validIdentifier_clean _ hval
    · exact hsegs s hs
  unfold NewPath PathString
  rw [StringToSegments_SegmentsToString (Segments P) hall]
  exact NewPathFromSegments_Segments P hrec hval hsegs

/-- The canonical path of the example of §8, `/ipfs/N/b`, has the text `/ipfs/N/b`
and is parsed back from it. -/
theorem round_trip_witness :
    PathString (mkPath "ipfs" "N" ["b"]) = "/ipfs/N/b" ∧
    NewPath (PathString (mkPath "ipfs" "N" ["b"])) = .ok (mkPath "ipfs" "N" ["b"]) :=
  ⟨by decide,
   round_trip exampleAPI background (mkPath "ipfs" "ROOT" ["a", "b"])
     (mkPath "ipfs" "N" ["b"]) rfl⟩

/-- C9: `ResolveNode` returns the resolved node. If `ResolvePath` fails with `e`,
`ResolveNode` returns a nil node and exactly `e` and makes no `Get`. Otherwise the
selected resolver (the IPLD one for the IPLD namespace, the UnixFS one for the IPFS
namespace) returned a node `N` and a remainder `r`, empty or not; `N` is the root
identifier of the resolved path, and `ResolveNode` makes exactly one `Get`, on `N`,
and returns its node or its error. -/
theorem ResolveNode_returns_resolved_node (api : CoreAPI SpecPath String Node NameSystem)
    (ctx : Context) (p : SpecPath) :
    (∀ e, (ResolvePath specLib api ctx p).err = some e →
      ResolveNode specLib api ctx p =
        { node := none, err := some e, calls := (ResolvePath specLib api ctx p).calls } ∧
      (ResolveNode specLib api ctx p).calls.filter Call.isDagGet = []) ∧
    ((ResolvePath specLib api ctx p).err = none →
      ∃ p1 N r rp,
        ResolveIPNS ctx api.namesys p = .ok p1 ∧
        ((p1.ns = IPLDNamespace ∧ api.ipldPathResolver ctx p1 = .ok (N, r)) ∨
         (p1.ns = IPFSNamespace ∧ api.unixFSPathResolver ctx p1 = .ok (N, r))) ∧
        (ResolvePath specLib api ctx p).path = some rp ∧
        (ResolvePath specLib api ctx p).remainder = r ∧
        specLib.RootCid rp = N ∧
        (ResolveNode specLib api ctx p).calls.filter Call.isDagGet = [Call.dagGet ctx N] ∧
        ResolveNode specLib api ctx p =
          (match api.dag ctx N with
           | .error e =>
             { node := none, err := some e,
               calls := (ResolvePath specLib api ctx p).calls ++ [Call.dagGet ctx N] }
           | .ok node =>
             { node := some node, err := none,
               calls := (ResolvePath specLib api ctx p).calls ++ [Call.dagGet ctx N] })) := by
  constructor
  · intro e he
    exact ResolveNode_of_err specLib api ctx p e he
  · intro he
    obtain ⟨rp, hrp⟩ := (ResolvePath_err_none_iff specLib api ctx p).1 he
    obtain ⟨p1, k, N, r, hns, hk, hres, hPeq, -, -, hrem, -⟩ :=
      ResolvePath_specLib_path api ctx p rp hrp
    have hN : specLib.RootCid rp = N := by rw [hPeq]; rfl
    obtain ⟨hnode, hget⟩ := ResolveNode_of_path specLib api ctx p rp he hrp
    rw [hN] at hnode hget
    refine ⟨p1, N, r, rp, hns, ?_, hrp, hrem, hN, hget, hnode⟩
    cases k with
    | ipld => exact Or.inl ⟨(switchNamespace_eq_ipld_iff _).1 hk, hres⟩
    | unixFS => exact Or.inr ⟨(switchNamespace_eq_unixFS_iff _).1 hk, hres⟩

/-- The node `N` that `/ipfs/ROOT/a/b` resolves to is fetched once and returned,
although the remainder `["b"]` is not empty; a path in the mutable naming namespace
with no naming system fails with `ErrOffline` and nothing is fetched. -/
theorem ResolveNode_returns_resolved_node_witness :
    (ResolveNode specLib exampleAPI background (mkPath "ipfs" "ROOT" ["a", "b"])).calls.filter
        Call.isDagGet = [Call.dagGet background "N"] ∧
    (ResolveNode specLib exampleAPI background (mkPath "ipfs" "ROOT" ["a", "b"])).node =
      some { links := [] } ∧
    (ResolveNode specLib exampleAPI background (mkPath "ipfs" "ROOT" ["a", "b"])).err = none ∧
    ResolveNode specLib exampleAPI background (mkPath "ipns" "name" []) =
      { node := none, err := some Error.ErrOffline,
        calls := [Call.ResolveIPNS background (mkPath "ipns" "name" [])] } := by
  refine ⟨?_, rfl, rfl, ?_⟩
  · obtain ⟨p1, N, r, rp, -, -, hrp, -, hN, hget, -⟩ :=
      (ResolveNode_returns_resolved_node exampleAPI background
        (mkPath "ipfs" "ROOT" ["a", "b"])).2 rfl
    have h1 : rp = mkPath "ipfs" "N" ["b"] := by
      have : some (mkPath "ipfs" "N" ["b"]) = some rp := hrp
      injection this with this
      exact this.symm
    subst h1
    have h2 : N = "N" := hN.symm
    subst h2
    exact hget
  · exact ((ResolveNode_returns_resolved_node exampleAPI background
      (mkPath "ipns" "name" [])).1 Error.ErrOffline rfl).1

end PathClaims

end Kubo
